import Mathlib

/-!
Shallow embedding of the fmp_toolbox repository (`update_fmp_project_location.py`
and `change_project_pm.py`): the resilient FileMaker client retry wrapper
`_auto_relogin_fm`, the audit note builder, the reconciliation batch loop with
its `UpdateStatus` outcome tally, and the foreign-path normalizer (`split_path`,
`db_path_to_user_path`).  Python strings are embedded as `List Char`.
-/

/-- Python `str.strip()` whitespace test, restricted to the ASCII whitespace
characters (Python also strips some further Unicode whitespace, which does not
occur in the data handled here). -/
def isPySpace (c : Char) : Bool :=
  c == ' ' || c == '\t' || c == '\n' || c == '\r' || c == '\x0b' || c == '\x0c'

/-- Python `str.strip()` (and pandas `.str.strip()`): drop leading and trailing
whitespace. -/
def pyStrip (s : List Char) : List Char :=
  ((s.dropWhile isPySpace).reverse.dropWhile isPySpace).reverse

/-! ## The retry wrapper `_auto_relogin_fm`

Both source files define the identical method

```python
def _auto_relogin_fm(self, server_method, *args, **kwargs):
    attempted = 0
    while True:
        try:
            return server_method(*args, **kwargs)
        except Exception as e:
            attempted += 1
            if attempted >= self.auto_login_attempts:
                raise e
            if '952' in str(e):
                self.fm_server.login()

            if '401' in str(e):
                warnings.warn("FileMaker Server returned error 401, ...")
                return None
            else:
                raise e
```

with `self.auto_login_attempts = 3`.  We model one invocation of
`server_method` as a `CallResult` (a returned value or a raised exception with
its text), and the environment as a sequence `calls : Nat → CallResult V`
giving the outcome of the n-th invocation of `server_method`.
-/

/-- Python's substring operator `needle in hay` on strings. -/
def pyContains (needle : List Char) : List Char → Bool
  | [] => needle == []
  | c :: t => needle.isPrefixOf (c :: t) || pyContains needle t

/-- Outcome of one invocation of the wrapped `server_method`: it either
returns a value or raises an exception whose `str(e)` text is `msg`. -/
inductive CallResult (V : Type) where
  | ok (v : V)
  | exn (msg : List Char)
deriving DecidableEq

/-- How `_auto_relogin_fm` leaves its `while True:` loop: a Python `return`
(`some` = the server result, `none` = the literal `return None` taken on a
`'401'` fault) or a `raise` of the caught exception. -/
inductive LoopExit (V : Type) where
  | ret (v : Option V)
  | raised (msg : List Char)
deriving DecidableEq

/-- Observable outcome of `_auto_relogin_fm`: the loop exit, the final value of
the `attempted` counter, whether `self.fm_server.login()` was called during the
invocation, and whether `warnings.warn` was called. -/
structure ReloginOut (V : Type) where
  exit : LoopExit V
  attempted : Nat
  didLogin : Bool
  warned : Bool
deriving DecidableEq

/-- The body of the `while True:` loop of `_auto_relogin_fm`, transcribed
branch for branch.  `res` is the outcome of the `server_method(...)` call of
this iteration and `attempted` the counter value on entry.  Note that every
branch of the `except` block ends in `return` or `raise`: the transcription
therefore produces a `ReloginOut` in every case and has no continue path. -/
def reloginBody {V : Type} (auto_login_attempts : Nat) (res : CallResult V)
    (attempted : Nat) : ReloginOut V :=
  match res with
  | .ok v => ⟨.ret (some v), attempted, false, false⟩
  | .exn e =>
    let attempted := attempted + 1
    if auto_login_attempts ≤ attempted then
      ⟨.raised e, attempted, false, false⟩
    else
      let didLogin := pyContains "952".toList e
      if pyContains "401".toList e then
        ⟨.ret none, attempted, didLogin, true⟩
      else
        ⟨.raised e, attempted, didLogin, false⟩

/-- `_auto_relogin_fm` itself: `attempted = 0`, then the `while True:` loop.
Since every branch of the loop body returns or raises (see `reloginBody`),
the loop always exits on its first iteration, so only the outcome of the
first `server_method` call, `calls 0`, is ever consumed. -/
def autoReloginFm {V : Type} (auto_login_attempts : Nat)
    (calls : Nat → CallResult V) : ReloginOut V :=
  reloginBody auto_login_attempts (calls 0) 0

/-- A session-expired fault text as produced by fmrest (carries `952`). -/
def fault952Msg : List Char :=
  "FileMaker Server returned error 952, Invalid FileMaker Data API token".toList

/-- Call sequence for claim C1: the first attempt raises the session-expired
fault, every later attempt would succeed with the value `7`. -/
def calls952 : Nat → CallResult Nat :=
  fun n => if n = 0 then .exn fault952Msg else .ok 7

/-- Claim C1 (code bug, actual behavior at the failing input): with the
attempt budget 3, when the first call raises a session-expired (952) fault and
the second attempt would succeed with `7`, `_auto_relogin_fm` re-authenticates
(`didLogin = true`) but then immediately re-raises the 952 fault out of the
`else` branch of the `'401'` check — it never retries and never returns the
success result, contradicting the claimed re-authenticate-then-retry
behavior. -/
theorem claim_C1_bug_relogin_then_raise :
    calls952 1 = .ok 7 ∧
    autoReloginFm 3 calls952 = ⟨.raised fault952Msg, 1, true, false⟩ := by
  constructor
  · rfl
  · decide

/-- A generic fault text carrying neither `952` nor `401`. -/
def faultOtherMsg : List Char :=
  "FileMaker Server returned error 102, Field is missing".toList

/-- Counterexample to claim C2 as stated: with the attempt budget 3 and every
call raising a fault that is neither session-expired nor no-match,
`_auto_relogin_fm` propagates the fault already after the first attempt
(`attempted = 1 < 3`): the `else` branch of the `'401'` check re-raises
immediately, so the claimed retry-until-the-budget-is-exhausted behavior
never happens. -/
theorem claim_C2_counterexample :
    autoReloginFm 3 (fun _ => (.exn faultOtherMsg : CallResult Nat)) =
      ⟨.raised faultOtherMsg, 1, false, false⟩ ∧ 1 < 3 := by
  constructor
  · decide
  · decide

/-- Claim C2 as amended: a fault that is neither session-expired (952) nor
no-match (401) is propagated to the caller immediately on the first failed
attempt, without re-authentication or warning — no retry happens and the
attempt budget is never exhausted, because every branch of the `except`
block returns or raises. -/
theorem claim_C2_amended_other_faults_raise_immediately {V : Type}
    (calls : Nat → CallResult V) (msg : List Char)
    (h0 : calls 0 = .exn msg)
    (h952 : pyContains "952".toList msg = false)
    (h401 : pyContains "401".toList msg = false) :
    autoReloginFm 3 calls = ⟨.raised msg, 1, false, false⟩ := by
  simp only [autoReloginFm, reloginBody, h0, h952, h401]
  norm_num

/-- Witness for the amended claim C2 at a concrete generic fault text. -/
theorem claim_C2_amended_other_faults_raise_immediately_witness :
    autoReloginFm 3 (fun _ => (.exn faultOtherMsg : CallResult Nat)) =
      ⟨.raised faultOtherMsg, 1, false, false⟩ :=
  claim_C2_amended_other_faults_raise_immediately
    (fun _ => .exn faultOtherMsg) faultOtherMsg rfl (by decide) (by decide)

/-- Claim C6: if the first call raises a fault whose text contains `'401'`
(the no-match fault), `_auto_relogin_fm` takes the `return None` branch —
an empty result, not a raise — and calls `warnings.warn`. -/
theorem claim_C6_no_match_returns_empty {V : Type}
    (calls : Nat → CallResult V) (msg : List Char)
    (h0 : calls 0 = .exn msg)
    (h401 : pyContains "401".toList msg = true) :
    (autoReloginFm 3 calls).exit = .ret none ∧
    (autoReloginFm 3 calls).warned = true := by
  simp only [autoReloginFm, reloginBody, h0, h401]
  norm_num

/-- A no-match fault text as produced by fmrest (carries `401`). -/
def fault401Msg : List Char :=
  "FileMaker Server returned error 401, No records match the request".toList

/-- Witness for claim C6 at the concrete fmrest 401 fault text. -/
theorem claim_C6_no_match_returns_empty_witness :
    (autoReloginFm 3 (fun _ => (.exn fault401Msg : CallResult Nat))).exit
        = .ret none ∧
    (autoReloginFm 3 (fun _ => (.exn fault401Msg : CallResult Nat))).warned
        = true :=
  claim_C6_no_match_returns_empty (fun _ => .exn fault401Msg) fault401Msg rfl
    (by decide)

/-! ## The audit note builder and the notes update (`change_project_pm.py`)

```python
def _generate_notes_str(self, old_pm_name, new_pm_name):
    change_note_template = "Project PM {} {} on {}"
    datestamp = datetime.now().strftime("%Y-%m-%d %H:%M:%S")
    if old_pm_name:
        change_str = f"changed from {old_pm_name} to"
    else:
        change_str = "set to"
    return change_note_template.format(change_str, new_pm_name, datestamp)
```

and, inside `change_project_pm` (lines 316-322):

```python
proj_notes = self.project_to_change[PROJECT_NOTES_FIELD]
new_notes = self._generate_notes_str(old_pm_name, target_pm_name)
if proj_notes:
    new_notes = proj_notes + "\n" + new_notes
changes_dict = {PROJECT_NOTES_FIELD: new_notes, ...}
```
-/

/-- Python truthiness of `old_pm_name`, which is `None` or a name string. -/
def pyTruthy (s : Option (List Char)) : Bool :=
  match s with
  | none => false
  | some t => t != []

/-- `_generate_notes_str`, with the datestamp passed in explicitly (in the
source it is `datetime.now()` formatted as `%Y-%m-%d %H:%M:%S`). -/
def generate_notes_str (old_pm_name : Option (List Char))
    (new_pm_name datestamp : List Char) : List Char :=
  let change_str :=
    if pyTruthy old_pm_name then
      "changed from ".toList ++ old_pm_name.getD [] ++ " to".toList
    else
      "set to".toList
  "Project PM ".toList ++ change_str ++ " ".toList ++ new_pm_name
    ++ " on ".toList ++ datestamp

/-- The notes/history write of `change_project_pm`: the field value sent to
the server, computed from the project's current notes `proj_notes` and the
freshly generated audit line `note_line`. -/
def updated_notes (proj_notes note_line : List Char) : List Char :=
  if proj_notes ≠ [] then proj_notes ++ '\n' :: note_line else note_line

/-- Concrete prior notes content for the claim C3 counterexample. -/
def c3PriorNotes : List Char := "Keep this project history.".toList

/-- Concrete audit line for the claim C3 counterexample: no previous manager,
new manager Jane Doe. -/
def c3NoteLine : List Char :=
  generate_notes_str none "Jane Doe".toList "2024-01-05 10:00:00".toList

/-- Counterexample to claim C3 as stated: with non-empty prior notes, the
resulting notes string does NOT start with the new audit line — the code
appends the line below the prior content (`proj_notes + "\n" + new_notes`),
it does not prepend it above. -/
theorem claim_C3_counterexample :
    ¬ c3NoteLine <+: updated_notes c3PriorNotes c3NoteLine := by
  decide

/-- Claim C3 as amended: whenever the manager-change workflow writes the
notes field and prior notes exist, the new audit line is appended BELOW the
prior content, separated by a newline; no prior content is discarded — the
result starts with the old notes text in full and ends with the new line. -/
theorem claim_C3_amended_note_appended_below
    (proj_notes note_line : List Char) (h : proj_notes ≠ []) :
    updated_notes proj_notes note_line = proj_notes ++ '\n' :: note_line ∧
    proj_notes <+: updated_notes proj_notes note_line ∧
    note_line <:+ updated_notes proj_notes note_line := by
  refine ⟨by simp [updated_notes, h], ?_, ?_⟩
  · exact ⟨'\n' :: note_line, by simp [updated_notes, h]⟩
  · exact ⟨proj_notes ++ ['\n'], by simp [updated_notes, h]⟩

/-- Witness for the amended claim C3 at the concrete counterexample input. -/
theorem claim_C3_amended_note_appended_below_witness :
    updated_notes c3PriorNotes c3NoteLine
        = c3PriorNotes ++ '\n' :: c3NoteLine ∧
    c3PriorNotes <+: updated_notes c3PriorNotes c3NoteLine ∧
    c3NoteLine <:+ updated_notes c3PriorNotes c3NoteLine :=
  claim_C3_amended_note_appended_below c3PriorNotes c3NoteLine (by decide)

/-! ## The path normalizer (`update_fmp_project_location.py`)

`split_path` classifies the input with two regexes
(`^[A-Za-z]:\\(.+)$` for Windows, `^/([^/]+/)*[^/]+$` for Linux), splits
Windows-looking paths with an explicit character loop, and splits everything
else by repeatedly peeling components with `os.path.split` — the script is
built to run on Linux, so `os.path.split` is `posixpath.split`.
`db_path_to_user_path` re-roots the segments under the mount prefix
`FILE_SERVER_LOCATION` with `os.path.join` (= `posixpath.join`).
-/

/-- Split on separator characters; a faithful rendering of how the regex
fragment `([^/]+/)*[^/]+` carves a string into `/`-separated groups (the
list of groups between separators, empty groups included). -/
def splitOnSep (isSep : Char → Bool) : List Char → List (List Char)
  | [] => [[]]
  | c :: rest =>
    match splitOnSep isSep rest with
    | [] => [[]]
    | g :: gs => if isSep c then [] :: g :: gs else (c :: g) :: gs

/-- The `(.+)$` tail of the Windows regex under `re.match` semantics: at
least one character, none of them a newline, with `$` also accepting a single
trailing newline. -/
def dotPlusAtEnd (rest : List Char) : Bool :=
  let core := if rest.getLast? == some '\n' then rest.dropLast else rest
  (!(core.isEmpty)) && core.all (fun c => c != '\n')

/-- The three answers of `detect_filepath_type`. -/
inductive PathType where
  | windows
  | linux
  | unknown
deriving DecidableEq

/-- `re.match(r"^[A-Za-z]:\\(.+)$", filepath)` viewed as a Bool. -/
def windowsPatternMatch : List Char → Bool
  | c0 :: c1 :: c2 :: rest =>
    c0.isAlpha && (c1 == ':') && (c2 == '\\') && dotPlusAtEnd rest
  | _ => false

/-- `re.match(r"^/([^/]+/)*[^/]+$", filepath)` viewed as a Bool: a leading
`/`, then non-empty `/`-separated groups with no trailing separator (the
class `[^/]` also accepts newlines, which absorbs the `$` newline case). -/
def linuxPatternMatch : List Char → Bool
  | '/' :: rest =>
    (!(rest.isEmpty)) &&
      (splitOnSep (fun c => c == '/') rest).all (fun seg => !(seg.isEmpty))
  | _ => false

/-- `detect_filepath_type` from `split_path`. -/
def detect_filepath_type (filepath : List Char) : PathType :=
  if windowsPatternMatch filepath then .windows
  else if linuxPatternMatch filepath then .linux
  else .unknown

/-- One character of the splitting loop of `split_windows_path`: on a
backslash, flush the accumulated `curr_part` if non-empty; otherwise extend
`curr_part`.  State is `(parts, curr_part)`. -/
def winCharStep (st : List (List Char) × List Char) (c : Char) :
    List (List Char) × List Char :=
  if c == '\\' then
    if st.2 ≠ [] then (st.1 ++ [st.2], []) else st
  else (st.1, st.2 ++ [c])

/-- The prefix detection of `split_windows_path`: a UNC prefix `\\`, or a
drive-letter prefix (second character `:`), or neither.  Returns the initial
`parts`, the remaining text, and the `is_absolute` flag. -/
def winPrefixSplit (filepath : List Char) :
    List (List Char) × List Char × Bool :=
  if filepath.take 2 = ['\\', '\\'] then
    ([filepath.take 2], filepath.drop 2, false)
  else if filepath[1]? = some ':' then
    ([filepath.take 2], filepath.drop 2, true)
  else ([], filepath, false)

/-- The last line of `split_windows_path`:
`if not is_absolute and not parts: parts.append(curr_part)`. -/
def winAppendEmpty (is_absolute : Bool) (parts : List (List Char))
    (curr_part : List Char) : List (List Char) :=
  if ¬ is_absolute ∧ parts = [] then parts ++ [curr_part] else parts

/-- The closing lines of `split_windows_path` after the character loop left
the state `st = (parts, curr_part)`: the final flush of a non-empty
`curr_part`, then `if not is_absolute and not parts: parts.append(curr_part)`
(at that point `curr_part` is necessarily empty). -/
def winFinish (is_absolute : Bool) (st : List (List Char) × List Char) :
    List (List Char) :=
  winAppendEmpty is_absolute
    (if st.2 ≠ [] then st.1 ++ [st.2] else st.1) st.2

/-- `split_windows_path` from `split_path`: prefix detection, the character
loop over the remaining text, and the closing flush. -/
def split_windows_path (filepath : List Char) : List (List Char) :=
  winFinish (winPrefixSplit filepath).2.2
    ((winPrefixSplit filepath).2.1.foldl winCharStep
      ((winPrefixSplit filepath).1, []))

/-- The split position of `posixpath.split`: `p.rfind('/') + 1`, i.e. the
index just after the last `/` (0 when there is none). -/
def posixSplitIdx (p : List Char) : Nat :=
  p.length - (p.reverse.takeWhile (fun c => c != '/')).length

/-- Python `head.rstrip('/')`. -/
def rstripSlash (l : List Char) : List Char :=
  (l.reverse.dropWhile (fun c => c == '/')).reverse

/-- `posixpath.split`: cut at `rfind('/') + 1`; strip trailing slashes off
the head unless the head is empty or consists only of slashes. -/
def posixSplit (p : List Char) : List Char × List Char :=
  if p.take (posixSplitIdx p) ≠ [] ∧
      ¬ ((p.take (posixSplitIdx p)).all (fun c => c == '/')) then
    (rstripSlash (p.take (posixSplitIdx p)), p.drop (posixSplitIdx p))
  else (p.take (posixSplitIdx p), p.drop (posixSplitIdx p))

/-- `dropWhile` never lengthens a list. -/
theorem length_dropWhileLe (f : Char → Bool) (l : List Char) :
    (l.dropWhile f).length ≤ l.length := by
  induction l with
  | nil => simp [List.dropWhile]
  | cons a t ih =>
    rw [List.dropWhile_cons]
    split
    · exact le_trans ih (by simp)
    · simp

/-- `takeWhile` never lengthens a list. -/
theorem length_takeWhileLe (f : Char → Bool) (l : List Char) :
    (l.takeWhile f).length ≤ l.length := by
  induction l with
  | nil => simp [List.takeWhile]
  | cons a t ih =>
    rw [List.takeWhile_cons]
    split
    · simpa using ih
    · simp

/-- Stripping trailing slashes never lengthens a list. -/
theorem rstripSlash_length_le (l : List Char) :
    (rstripSlash l).length ≤ l.length := by
  unfold rstripSlash
  rw [List.length_reverse]
  calc (l.reverse.dropWhile (fun c => c == '/')).length
      ≤ l.reverse.length := length_dropWhileLe _ _
    _ = l.length := List.length_reverse l

/-- The tail component of `posixpath.split` is the drop at the cut index. -/
theorem posixSplit_snd_eq (p : List Char) :
    (posixSplit p).2 = p.drop (posixSplitIdx p) := by
  unfold posixSplit
  split <;> rfl

/-- The head component of `posixpath.split` in the stripping branch. -/
theorem posixSplit_fst_pos (p : List Char)
    (h : p.take (posixSplitIdx p) ≠ [] ∧
      ¬ ((p.take (posixSplitIdx p)).all (fun c => c == '/'))) :
    (posixSplit p).1 = rstripSlash (p.take (posixSplitIdx p)) := by
  unfold posixSplit
  rw [if_pos h]

/-- The head component of `posixpath.split` in the non-stripping branch. -/
theorem posixSplit_fst_neg (p : List Char)
    (h : ¬ (p.take (posixSplitIdx p) ≠ [] ∧
      ¬ ((p.take (posixSplitIdx p)).all (fun c => c == '/')))) :
    (posixSplit p).1 = p.take (posixSplitIdx p) := by
  unfold posixSplit
  rw [if_neg h]

/-- Termination of the `split_other_path` loop: when `posixpath.split`
returns neither of its two sentinels (`head == path` / `tail == path`), the
head is strictly shorter than the input. -/
theorem posixSplit_fst_length_lt (p : List Char)
    (h1 : (posixSplit p).1 ≠ p) (h2 : (posixSplit p).2 ≠ p) :
    (posixSplit p).1.length < p.length := by
  have hle : posixSplitIdx p ≤ p.length := Nat.sub_le _ _
  have hfle : (posixSplit p).1.length ≤ (p.take (posixSplitIdx p)).length := by
    by_cases hc : p.take (posixSplitIdx p) ≠ [] ∧
        ¬ ((p.take (posixSplitIdx p)).all (fun c => c == '/'))
    · rw [posixSplit_fst_pos p hc]
      exact rstripSlash_length_le _
    · rw [posixSplit_fst_neg p hc]
  rcases Nat.lt_or_ge (posixSplitIdx p) p.length with hlt | hge
  · -- the head is a proper prefix of `p` (possibly further stripped)
    have htake : (p.take (posixSplitIdx p)).length = posixSplitIdx p := by
      rw [List.length_take]
      omega
    omega
  · -- `posixSplitIdx p = p.length`: the whole of `p` is the head
    have hidx : posixSplitIdx p = p.length := le_antisymm hle hge
    have htake : p.take (posixSplitIdx p) = p := by
      rw [hidx, List.take_length]
    have hpne : p ≠ [] := by
      intro hnil
      apply h2
      rw [posixSplit_snd_eq, hnil]
      simp
    have htw : (p.reverse.takeWhile (fun c => c != '/')).length = 0 := by
      have hlen := length_takeWhileLe (fun c => c != '/') p.reverse
      rw [List.length_reverse] at hlen
      unfold posixSplitIdx at hidx
      omega
    -- the last character of `p` is a slash
    obtain ⟨c, r, hrev⟩ : ∃ c r, p.reverse = c :: r := by
      cases hr : p.reverse with
      | nil => exact absurd (List.reverse_eq_nil_iff.mp hr) hpne
      | cons c r => exact ⟨c, r, rfl⟩
    have hc : c = '/' := by
      by_contra hne
      have hb : (c != '/') = true := bne_iff_ne.mpr hne
      rw [hrev] at htw
      simp [List.takeWhile_cons, hb] at htw
    by_cases hall : (p.take (posixSplitIdx p)).all (fun c => c == '/') = true
    · -- all slashes: the sentinel branch, contradicting `h1`
      exfalso
      apply h1
      rw [posixSplit_fst_neg p (by intro hcon; exact hcon.2 hall)]
      exact htake
    · have hcond : p.take (posixSplitIdx p) ≠ [] ∧
          ¬ ((p.take (posixSplitIdx p)).all (fun c => c == '/')) := by
        constructor
        · rw [htake]; exact hpne
        · exact hall
      rw [posixSplit_fst_pos p hcond, htake]
      have hstrip : rstripSlash p = (r.dropWhile (fun ch => ch == '/')).reverse := by
        unfold rstripSlash
        rw [hrev, hc]
        simp [List.dropWhile_cons]
      rw [hstrip, List.length_reverse]
      have hdw := length_dropWhileLe (fun ch => ch == '/') r
      have hrlen : r.length + 1 = p.length := by
        have hlenrev := congrArg List.length hrev
        rw [List.length_reverse] at hlenrev
        simp at hlenrev
        omega
      omega

/-- The `while True:` loop of `split_other_path`, with the accumulator of
`allparts.insert(0, ...)` made explicit (`acc` holds the parts found so far,
leftmost first; each iteration prepends in front of it). -/
def splitOtherLoop (p : List Char) (acc : List (List Char)) :
    List (List Char) :=
  if h1 : (posixSplit p).1 = p then (posixSplit p).1 :: acc
  else if h2 : (posixSplit p).2 = p then (posixSplit p).2 :: acc
  else splitOtherLoop (posixSplit p).1 ((posixSplit p).2 :: acc)
termination_by p.length
decreasing_by exact posixSplit_fst_length_lt p h1 h2

/-- `split_other_path` from `split_path`. -/
def split_other_path (path : List Char) : List (List Char) :=
  splitOtherLoop path []

/-- `split_path`: classify, then split with the matching splitter (both the
`Linux` and the `Unknown` classifications use `split_other_path`). -/
def split_path (path : List Char) : List (List Char) :=
  match detect_filepath_type path with
  | .windows => split_windows_path path
  | _ => split_other_path path

/-- One step of `posixpath.join`: absolute parts replace, otherwise append
with a `/` unless the path so far is empty or already ends in `/`. -/
def posixJoinOne (path b : List Char) : List Char :=
  if b.head? == some '/' then b
  else if path.isEmpty || path.getLast? == some '/' then path ++ b
  else path ++ '/' :: b

/-- `posixpath.join(a, *ps)`. -/
def posixJoin (a : List Char) (ps : List (List Char)) : List Char :=
  ps.foldl posixJoinOne a

/-- The mount prefix `FILE_SERVER_LOCATION = "N:\\PPDO\\Records\\"`. -/
def FILE_SERVER_LOCATION : List Char := "N:\\PPDO\\Records\\".toList

/-- `db_path_to_user_path`: `os.path.join(*([FILE_SERVER_LOCATION] +
split_path(db_path)))`. -/
def db_path_to_user_path (db_path : List Char) : List Char :=
  posixJoin FILE_SERVER_LOCATION (split_path db_path)

/-- Modelled from the spec: the spec compares the produced local path with an
all-backslash rendering up to "equivalence"; we read two paths as equivalent
when they decompose into the same non-empty segments, splitting on either
separator. -/
def pathSegments (p : List Char) : List (List Char) :=
  (splitOnSep (fun c => c == '/' || c == '\\') p).filter (fun seg => seg ≠ [])

/-! ## The reconciliation batch loop (`update_fmp_project_location.py`)

The `__main__` block iterates database rows `(number, file_server_location)`;
for each row it queries FileMaker by project number through the clerk, strips
and filters the result by exact project-number equality, verifies the single
match by `ID_Primary`, and edits the record's `FileServerLocation` field,
tallying outcomes in an `UpdateStatus`.  The clerk methods go through
`_auto_relogin_fm`, so each query either yields a foundset, yields `None`
(the `'401'` no-records branch), or raises; a raise anywhere in the row is
caught by the row-level `except`, which logs and continues without touching
the tally.
-/

/-- A FileMaker project row as seen by the batch loop: the
`ProjectNumber` field after `astype(str)`, the `ID_Primary` field, and the
FileMaker-native `recordId` used for edits. -/
structure FmpRecord where
  projectNumber : List Char
  idPrimary : List Char
  recordId : Nat
deriving DecidableEq, Repr

/-- Result of a clerk query (`projects_queried_by_number` /
`projects_queried_by_id`): a foundset, `None` from the `'401'` branch of
`_auto_relogin_fm`, or a raised exception. -/
inductive QueryOutcome where
  | found (records : List FmpRecord)
  | noRecords
  | raised
deriving DecidableEq

/-- Result of `make_change_to_project_data`: the edit result's truthiness,
or a raised exception. -/
inductive EditOutcome where
  | ok (truthy : Bool)
  | raised
deriving DecidableEq

/-- The remote side as the batch loop observes it through the clerk. -/
structure ClerkOracle where
  byNumber : List Char → QueryOutcome
  byId : List Char → QueryOutcome
  edit : Nat → List Char → EditOutcome

/-- The `UpdateStatus` tally.  `projects_modified` collects project numbers
in order. -/
structure UpdateStatus where
  project_locations_updated : Nat := 0
  projects_not_in_fmp : Nat := 0
  projects_not_in_db : Nat := 0
  multiple_projects_in_fmp : Nat := 0
  ids_not_found_in_fmp : Nat := 0
  projects_modified : List (List Char) := []
deriving DecidableEq, Repr

/-- `UpdateStatus.__init__`: every counter zero, no modified projects. -/
def UpdateStatus.init : UpdateStatus := {}

/-- The matching step of the batch loop: the foundset's `ProjectNumber`
column is cast to string and stripped
(`.astype(str).str.strip()`), then the rows equal to the raw source
`proj_number` are kept (`fmp_proj_num_df[... == proj_number]`).  Note that
only the remote side is stripped; the source value is compared as-is. -/
def matchRemote (proj_number : List Char) (foundset : List FmpRecord) :
    List FmpRecord :=
  foundset.filter (fun r => pyStrip r.projectNumber == proj_number)

/-- Modelled from the spec: the spec's matching step instead normalizes the
business key as a trimmed string on BOTH sides and filters on equality of the
two trimmed keys.  Kept for comparison with `matchRemote`. -/
def matchRemoteSpec (proj_number : List Char) (foundset : List FmpRecord) :
    List FmpRecord :=
  foundset.filter (fun r => pyStrip r.projectNumber == pyStrip proj_number)

/-- An edit call issued by the batch loop: the FileMaker `recordId` and the
new `FileServerLocation` value. -/
structure EditCall where
  recordId : Nat
  newLocation : List Char
deriving DecidableEq, Repr

/-- One iteration of the batch loop body for the source row
`(proj_number, proj_db_location)`: returns the updated tally and the list of
edit calls issued.  A `raised` outcome anywhere reproduces the row-level
`except`: the row is skipped with the tally unchanged. -/
def processRow (clerk : ClerkOracle) (status : UpdateStatus)
    (proj_number proj_db_location : List Char) :
    UpdateStatus × List EditCall :=
  match clerk.byNumber proj_number with
  | .raised => (status, [])
  | .noRecords =>
    ({ status with projects_not_in_fmp := status.projects_not_in_fmp + 1 }, [])
  | .found foundset =>
    match matchRemote proj_number foundset with
    | [] =>
      ({ status with projects_not_in_fmp := status.projects_not_in_fmp + 1 },
        [])
    | _ :: _ :: _ =>
      ({ status with
          multiple_projects_in_fmp := status.multiple_projects_in_fmp + 1 },
        [])
    | m :: [] =>
      match clerk.byId m.idPrimary with
      | .raised => (status, [])
      | .noRecords =>
        ({ status with
            ids_not_found_in_fmp := status.ids_not_found_in_fmp + 1 }, [])
      | .found idRecords =>
        if 1 < idRecords.length then
          ({ status with
              ids_not_found_in_fmp := status.ids_not_found_in_fmp + 1 }, [])
        else
          match idRecords with
          | [] => (status, [])
          | r :: _ =>
            let user_location := db_path_to_user_path proj_db_location
            match clerk.edit r.recordId user_location with
            | .raised => (status, [⟨r.recordId, user_location⟩])
            | .ok b =>
              if b then
                ({ status with
                    project_locations_updated :=
                      status.project_locations_updated + 1,
                    projects_modified :=
                      status.projects_modified ++ [proj_number] },
                  [⟨r.recordId, user_location⟩])
              else (status, [⟨r.recordId, user_location⟩])

/-- The whole batch run: fold `processRow` over the database rows starting
from a fresh `UpdateStatus`, accumulating the issued edit calls. -/
def runBatch (clerk : ClerkOracle) (rows : List (List Char × List Char)) :
    UpdateStatus × List EditCall :=
  rows.foldl
    (fun acc row =>
      let out := processRow clerk acc.1 row.1 row.2
      (out.1, acc.2 ++ out.2))
    (UpdateStatus.init, [])

/-- `UpdateStatus.__str__`: the fixed-order five-line summary (it renders the
five counters, not `projects_modified`). -/
def statusStr (s : UpdateStatus) : List Char :=
  "Project Locations Updated: ".toList
    ++ (toString s.project_locations_updated).toList ++ "\n".toList
    ++ "Projects Not Found in FileMaker: ".toList
    ++ (toString s.projects_not_in_fmp).toList ++ "\n".toList
    ++ "Projects Not Found in Database: ".toList
    ++ (toString s.projects_not_in_db).toList ++ "\n".toList
    ++ "Multiple Projects Found in FileMaker: ".toList
    ++ (toString s.multiple_projects_in_fmp).toList ++ "\n".toList
    ++ "IDs Not Found in FileMaker: ".toList
    ++ (toString s.ids_not_found_in_fmp).toList ++ "\n".toList

/-- Concrete remote record for the claim C4 counterexample. -/
def c4Record : FmpRecord := ⟨"1234".toList, "7".toList, 3⟩

/-- Counterexample to claim C4 as stated: with the raw source key `" 1234"`
(leading whitespace) and a remote record whose key is `"1234"`, the code's
filter keeps nothing — the source side is NOT trimmed — whereas the spec's
both-sides-trimmed filter keeps the record. -/
theorem claim_C4_counterexample :
    matchRemote " 1234".toList [c4Record] = [] ∧
    matchRemoteSpec " 1234".toList [c4Record] = [c4Record] := by
  constructor
  · decide
  · decide

/-- Claim C4 as amended: each remote result's business key is cast to string
and whitespace-trimmed, and the remote result set is filtered to the rows
whose trimmed key is string-equal to the raw, untrimmed source key. -/
theorem claim_C4_amended_only_remote_trimmed
    (r : FmpRecord) (k : List Char) (fs : List FmpRecord) :
    r ∈ matchRemote k fs ↔ r ∈ fs ∧ pyStrip r.projectNumber = k := by
  simp [matchRemote, List.mem_filter]

/-- Claim C5: when the by-number query returns a foundset whose
trimmed-match set is exactly one record `m`, the secondary `ID_Primary`
lookup confirms exactly one record `r`, and the edit succeeds, the batch
loop issues exactly one edit call, increments `project_locations_updated`
by one, and appends the source business key to `projects_modified`. -/
theorem claim_C5_single_match_single_edit
    (clerk : ClerkOracle) (status : UpdateStatus)
    (n loc : List Char) (fs : List FmpRecord) (m r : FmpRecord)
    (h1 : clerk.byNumber n = .found fs)
    (h2 : matchRemote n fs = [m])
    (h3 : clerk.byId m.idPrimary = .found [r])
    (h4 : clerk.edit r.recordId (db_path_to_user_path loc) = .ok true) :
    processRow clerk status n loc =
      ({ status with
          project_locations_updated := status.project_locations_updated + 1,
          projects_modified := status.projects_modified ++ [n] },
        [⟨r.recordId, db_path_to_user_path loc⟩]) := by
  simp [processRow, h1, h2, h3, h4]

/-- The single remote project of the claim C5 witness world. -/
def c5Record : FmpRecord := ⟨"1234".toList, "42".toList, 10⟩

/-- The remote world of the claim C5 witness: exactly one project with
business key `"1234"` and `ID_Primary` `"42"`; edits succeed. -/
def c5Clerk : ClerkOracle where
  byNumber := fun k => if k = "1234".toList then .found [c5Record] else .noRecords
  byId := fun i => if i = "42".toList then .found [c5Record] else .noRecords
  edit := fun _ _ => .ok true

/-- Witness for claim C5: the end-to-end scenario of the spec — source row
`("1234", "archives/2024/site-a")`, one matching remote project — issues one
edit call, sets `project_locations_updated` to 1 and `projects_modified` to
`["1234"]`. -/
theorem claim_C5_single_match_single_edit_witness :
    processRow c5Clerk UpdateStatus.init "1234".toList
        "archives/2024/site-a".toList =
      ({ UpdateStatus.init with
          project_locations_updated := 1,
          projects_modified := ["1234".toList] },
        [⟨10, db_path_to_user_path "archives/2024/site-a".toList⟩]) :=
  claim_C5_single_match_single_edit c5Clerk UpdateStatus.init
    "1234".toList "archives/2024/site-a".toList [c5Record] c5Record c5Record
    (by decide) (by decide) (by decide) rfl

/-- No branch of the batch loop body touches `projects_not_in_db`. -/
theorem processRow_projects_not_in_db (clerk : ClerkOracle)
    (status : UpdateStatus) (n loc : List Char) :
    (processRow clerk status n loc).1.projects_not_in_db =
      status.projects_not_in_db := by
  unfold processRow
  repeat' split
  all_goals try dsimp only
  all_goals repeat' split
  all_goals rfl

/-- Folding the batch loop never changes `projects_not_in_db`. -/
theorem runBatch_aux_projects_not_in_db (clerk : ClerkOracle)
    (rows : List (List Char × List Char)) :
    ∀ acc : UpdateStatus × List EditCall,
      ((rows.foldl
        (fun acc row =>
          let out := processRow clerk acc.1 row.1 row.2
          (out.1, acc.2 ++ out.2)) acc).1).projects_not_in_db =
      acc.1.projects_not_in_db := by
  induction rows with
  | nil => intro acc; rfl
  | cons row rest ih =>
    intro acc
    rw [List.foldl_cons, ih]
    exact processRow_projects_not_in_db clerk acc.1 row.1 row.2

set_option maxRecDepth 8192 in
/-- Claim C9: `projects_not_in_db` starts at 0 and no operation of the batch
run ever touches it: after every run it is still 0, and the fixed-order
summary string renders its line with the value 0. -/
theorem claim_C9_projects_not_in_db_constant_zero
    (clerk : ClerkOracle) (rows : List (List Char × List Char)) :
    UpdateStatus.init.projects_not_in_db = 0 ∧
    (runBatch clerk rows).1.projects_not_in_db = 0 ∧
    ∃ pre post, statusStr (runBatch clerk rows).1 =
      pre ++ ("Projects Not Found in Database: ".toList
        ++ (toString (0 : Nat)).toList ++ "\n".toList) ++ post := by
  have h0 : (runBatch clerk rows).1.projects_not_in_db = 0 :=
    runBatch_aux_projects_not_in_db clerk rows (UpdateStatus.init, [])
  refine ⟨rfl, h0, ?_, ?_, ?_⟩
  · exact "Project Locations Updated: ".toList
      ++ (toString (runBatch clerk rows).1.project_locations_updated).toList
      ++ "\n".toList
      ++ "Projects Not Found in FileMaker: ".toList
      ++ (toString (runBatch clerk rows).1.projects_not_in_fmp).toList
      ++ "\n".toList
  · exact "Multiple Projects Found in FileMaker: ".toList
      ++ (toString (runBatch clerk rows).1.multiple_projects_in_fmp).toList
      ++ "\n".toList
      ++ "IDs Not Found in FileMaker: ".toList
      ++ (toString (runBatch clerk rows).1.ids_not_found_in_fmp).toList
      ++ "\n".toList
  · rw [statusStr, h0]
    simp only [List.append_assoc]

/-- The foreign source path of claim C7. -/
def c7Input : List Char := "C:\\PPDO\\Records\\2024\\ABC".toList

/-- Counterexample to claim C7 as stated: the produced local path is NOT
equivalent (same non-empty segment sequence) to
`"N:\PPDO\Records\PPDO\Records\2024\ABC"` — the source drive token `"C:"`
survives as an extra path segment between the mount prefix and the doubled
suffix. -/
theorem claim_C7_counterexample :
    pathSegments (db_path_to_user_path c7Input) ≠
      pathSegments "N:\\PPDO\\Records\\PPDO\\Records\\2024\\ABC".toList := by
  decide

/-- Claim C7 as amended: the input splits into
`["C:", "PPDO", "Records", "2024", "ABC"]` and ALL five segments — the drive
token included — are re-rooted under the mount prefix, yielding
`"N:\PPDO\Records\/C:/PPDO/Records/2024/ABC"`, i.e. a path equivalent to
`"N:\PPDO\Records\C:\PPDO\Records\2024\ABC"`: the double-prefix contract
with the source drive letter embedded as a directory segment. -/
theorem claim_C7_amended_double_root_keeps_drive :
    split_path c7Input =
      ["C:".toList, "PPDO".toList, "Records".toList, "2024".toList,
        "ABC".toList] ∧
    db_path_to_user_path c7Input =
      "N:\\PPDO\\Records\\/C:/PPDO/Records/2024/ABC".toList ∧
    pathSegments (db_path_to_user_path c7Input) =
      pathSegments "N:\\PPDO\\Records\\C:\\PPDO\\Records\\2024\\ABC".toList := by
  refine ⟨by decide, by decide, by decide⟩

/-- Evaluation of the splitter at the drive-letter-only input `"C:\"`: the
Windows regex `^[A-Za-z]:\\(.+)$` requires at least one character after the
separator, so the input is classified `Unknown`; `posixpath.split` finds no
`/`, hits the relative-path sentinel on the first iteration, and the whole
input comes back as the single segment. -/
theorem split_path_drive_only :
    split_path "C:\\".toList = ["C:\\".toList] := by
  have hsplit : posixSplit "C:\\".toList = ([], "C:\\".toList) := by decide
  show split_other_path "C:\\".toList = ["C:\\".toList]
  unfold split_other_path
  rw [splitOtherLoop, hsplit]
  norm_num

/-- Counterexample to claim C8 as stated: `split_path "C:\"` does not return
`["C:"]` — the single segment is not the two-character drive token. -/
theorem claim_C8_counterexample :
    split_path "C:\\".toList ≠ ["C:".toList] := by
  rw [split_path_drive_only]
  decide

/-- Claim C8 as amended: for the drive-letter-only input `"C:\"`,
`split_path` returns a list of exactly one segment, but the segment is the
entire input `"C:\"` (drive letter, colon and trailing separator), not the
bare drive token: the input fails the Windows pattern and is split by the
generic splitter, whose relative-path sentinel returns it whole. -/
theorem claim_C8_amended_single_whole_segment :
    split_path "C:\\".toList = ["C:\\".toList] ∧
    (split_path "C:\\".toList).length = 1 := by
  refine ⟨split_path_drive_only, ?_⟩
  rw [split_path_drive_only]
  rfl

/-- One step of the character loop never shortens the accumulated `parts`. -/
theorem winCharStep_fst_length (st : List (List Char) × List Char)
    (a : Char) : st.1.length ≤ (winCharStep st a).1.length := by
  unfold winCharStep
  split
  · split
    · simp
    · exact le_refl _
  · exact le_refl _

/-- The whole character loop never shortens the accumulated `parts`. -/
theorem winFold_parts_length (l : List Char) :
    ∀ (ps : List (List Char)) (c : List Char),
      ps.length ≤ ((l.foldl winCharStep (ps, c)).1).length := by
  induction l with
  | nil => intro ps c; exact le_refl _
  | cons a t ih =>
    intro ps c
    rw [List.foldl_cons]
    calc ps.length
        ≤ (winCharStep (ps, c) a).1.length := winCharStep_fst_length (ps, c) a
      _ ≤ _ := ih (winCharStep (ps, c) a).1 (winCharStep (ps, c) a).2

/-- When the prefix detector reports an absolute path, it has already seeded
`parts` with the drive token. -/
theorem winPrefixSplit_abs_parts (filepath : List Char)
    (h : (winPrefixSplit filepath).2.2 = true) :
    ((winPrefixSplit filepath).1).length = 1 := by
  unfold winPrefixSplit at h ⊢
  by_cases h1 : filepath.take 2 = ['\\', '\\']
  · rw [if_pos h1] at h
    simp at h
  · rw [if_neg h1] at h ⊢
    by_cases h2 : filepath[1]? = some ':'
    · rw [if_pos h2]
      rfl
    · rw [if_neg h2] at h
      simp at h

/-- The final `parts.append(curr_part)` guard keeps the list non-empty: it
fires exactly when `parts` is empty on a non-absolute path. -/
theorem winAppendEmpty_ne_nil (is_absolute : Bool)
    (parts : List (List Char)) (curr_part : List Char)
    (h : is_absolute = true → parts ≠ []) :
    winAppendEmpty is_absolute parts curr_part ≠ [] := by
  unfold winAppendEmpty
  split
  · simp
  · rename_i hcond
    cases is_absolute with
    | false =>
      intro hnil
      exact hcond ⟨by simp, hnil⟩
    | true => exact h rfl

/-- The closing flush returns a non-empty list whenever an absolute prefix
guarantees a seeded `parts` (and unconditionally otherwise, via the final
`parts.append(curr_part)`). -/
theorem winFinish_ne_nil (is_absolute : Bool)
    (st : List (List Char) × List Char)
    (h : is_absolute = true → st.1 ≠ []) :
    winFinish is_absolute st ≠ [] := by
  unfold winFinish
  apply winAppendEmpty_ne_nil
  intro hb
  have h1 := h hb
  by_cases hc : st.2 ≠ []
  · rw [if_pos hc]
    simp
  · rw [if_neg hc]
    exact h1

/-- `split_windows_path` always returns at least one segment. -/
theorem split_windows_path_ne_nil (filepath : List Char) :
    split_windows_path filepath ≠ [] := by
  unfold split_windows_path
  apply winFinish_ne_nil
  intro habs hnil
  have hlen := winFold_parts_length (winPrefixSplit filepath).2.1
    (winPrefixSplit filepath).1 []
  rw [hnil, List.length_nil] at hlen
  have hone := winPrefixSplit_abs_parts filepath habs
  omega

/-- The generic splitting loop always returns at least one segment: each
sentinel branch prepends one part in front of the accumulator. -/
theorem splitOtherLoop_ne_nil (p : List Char) (acc : List (List Char)) :
    splitOtherLoop p acc ≠ [] := by
  induction p, acc using splitOtherLoop.induct with
  | case1 p acc h1 =>
    rw [splitOtherLoop]
    simp [h1]
  | case2 p acc h1 h2 =>
    rw [splitOtherLoop]
    simp [h1, h2]
  | case3 p acc h1 h2 ih =>
    rw [splitOtherLoop]
    simp [h1, h2]
    exact ih

/-- Claim C10: `split_path` is total (its Lean transcription requires no
fuel; the generic loop terminates because `posixpath.split` strictly shrinks
the path when no sentinel fires) and returns a non-empty segment list on
every input, including the empty string and separator-only strings. -/
theorem claim_C10_split_path_total_nonempty (p : List Char) :
    split_path p ≠ [] := by
  unfold split_path
  split
  · exact split_windows_path_ne_nil p
  · exact splitOtherLoop_ne_nil p []
